import Mathlib

/-!
Verification of the aiana memory subsystem.

This file gives a shallow embedding of the core memory components of the
aiana repository and proves the specified properties about them:

* the multi-backend aggregated search (`_memory_search` in
  `src/aiana/mcp/server.py`),
* the feedback ledger (`add_feedback` in `src/aiana/storage/sqlite.py`
  and `_memory_feedback` in `src/aiana/mcp/server.py`),
* the Redis cache layer (`src/aiana/storage/redis.py`: context cache and
  user profile),
* the context injector (`src/aiana/context/injector.py`).

Modelling conventions: machine integers are `Nat`/`Int` (no overflow is
possible in the modelled code paths), Python dictionaries with optional
keys become structures with `Option` fields, a raised-and-caught
exception becomes an `Except Unit` result inspected at the catch site,
and Python float similarity scores are represented by exact rationals
(the aggregated search only passes scores through; it never computes
with them).  Backend services (mem0, qdrant, the sqlite database, the
Redis server) are external processes; each backend call is modelled as
an oracle function from the requested parameters to either an error
(the call raised) or a list of raw rows, and the Redis key space is
modelled as explicit state that the cache operations transform.
-/

namespace Aiana

/-! ## Aggregated memory search (`server.py`, `_memory_search`)

`_memory_search` builds a result list from up to three backends.  Each
backend entry is a Python dict; keys read with `r["k"]` are required
(a missing key raises `KeyError` inside the list comprehension, which
is caught by the surrounding `except`, so the whole batch from that
backend is discarded), keys read with `r.get("k", d)` are optional. -/

/-- A raw result row from `Mem0Storage.search`.  `_memory_search` reads
`content` with `r["content"]` (required) and the rest with `r.get`. -/
structure Mem0Raw where
  id : Option String
  score : Option Rat
  content : Option String
  project : Option String
  timestamp : Option String
deriving DecidableEq, Repr

/-- A raw result row from `QdrantStorage.search`.  `_memory_search` reads
`score` and `content` with `r["k"]` (required) and the rest with `r.get`. -/
structure QdrantRaw where
  id : Option String
  score : Option Rat
  content : Option String
  project : Option String
  timestamp : Option String
deriving DecidableEq, Repr

/-- A `Message` row as returned by `AianaStorage.search` (sqlite FTS).
The model keeps the three attributes `_memory_search` uses; `timestamp`
holds the already ISO-formatted value of `m.timestamp.isoformat()`. -/
structure Message where
  content : String
  session_id : String
  timestamp : String
deriving DecidableEq, Repr

/-- One entry of the aggregated result list, tagged by source backend.
The three backends produce different field sets (the fulltext rows carry
no id and no score), exactly as the three dict shapes in
`_memory_search`. -/
inductive SearchResult where
  | mem0Hit (id : String) (score : Rat) (content : String)
      (project : Option String) (timestamp : Option String)
  | semanticHit (id : String) (score : Rat) (content : String)
      (project : Option String) (timestamp : Option String)
  | fulltextHit (content : String) (session_id : String) (timestamp : String)
deriving DecidableEq, Repr

/-- The `source` tag attached to each result dict. -/
def SearchResult.source : SearchResult → String
  | .mem0Hit .. => "mem0"
  | .semanticHit .. => "semantic"
  | .fulltextHit .. => "fulltext"

/-- One mem0 dict as built in `_memory_search`: `id` and `score` default
(`r.get("id", "")`, `r.get("score", 1.0)`), `content` is required
(`r["content"]` raises when missing). -/
def convertMem0One (r : Mem0Raw) : Option SearchResult :=
  match r.content with
  | none => none
  | some c => some (.mem0Hit (r.id.getD "") (r.score.getD 1) c r.project r.timestamp)

/-- One qdrant dict as built in `_memory_search`: `score` and `content`
are required (`r["score"]`, `r["content"]`), `id` defaults to `""`. -/
def convertQdrantOne (r : QdrantRaw) : Option SearchResult :=
  match r.score, r.content with
  | some sc, some c => some (.semanticHit (r.id.getD "") sc c r.project r.timestamp)
  | _, _ => none

/-- Semantics of the Python list comprehension feeding `results.extend`:
the whole output list is built before `extend` runs, so a failing
element (a `KeyError`) aborts the entire batch and nothing is added. -/
def convertAll (f : α → Option SearchResult) : List α → Option (List SearchResult)
  | [] => some []
  | r :: rs =>
    match f r, convertAll f rs with
    | some y, some ys => some (y :: ys)
    | _, _ => none

def convertMem0 (rs : List Mem0Raw) : Option (List SearchResult) :=
  convertAll convertMem0One rs

def convertQdrant (rs : List QdrantRaw) : Option (List SearchResult) :=
  convertAll convertQdrantOne rs

/-- The fulltext comprehension reads model attributes (`m.content[:500]`,
`m.session_id`, `m.timestamp`), which cannot raise, so its converter is
total. -/
def convertSqlite (ms : List Message) : Option (List SearchResult) :=
  convertAll (fun m => some (.fulltextHit (m.content.take 500) m.session_id m.timestamp)) ms

/-- The three backend handles of the MCP server (`self.mem0`,
`self.qdrant`, `self.sqlite`); `none` models a backend that is not
configured.  A configured backend is an oracle from the requested limit
to either a raised exception or a list of raw rows (query and project
are fixed for a single aggregated search). -/
structure Backends where
  mem0 : Option (Nat → Except Unit (List Mem0Raw))
  qdrant : Option (Nat → Except Unit (List QdrantRaw))
  sqlite : Option (Nat → Except Unit (List Message))

/-- What one backend block of `_memory_search` adds to `results`:
nothing when the backend is absent, nothing when the call raises,
nothing when the comprehension raises (`convert` returns `none`),
otherwise the converted batch. -/
def backendContribution {α : Type} (backend : Option (Nat → Except Unit (List α)))
    (convert : List α → Option (List SearchResult)) (n : Nat) : List SearchResult :=
  match backend with
  | none => []
  | some g =>
    match g n with
    | .error _ => []
    | .ok raws => (convert raws).getD []

/-- The value of `results` in `_memory_search` after the mem0 block:
mem0 is queried unconditionally for the full limit. -/
def memorySearchAfterMem0 (b : Backends) (limit : Nat) : List SearchResult :=
  backendContribution b.mem0 convertMem0 limit

/-- The value of `results` after the qdrant block: qdrant is queried only
if still short of the limit, and only for the remaining budget. -/
def memorySearchAfterQdrant (b : Backends) (limit : Nat) : List SearchResult :=
  if (memorySearchAfterMem0 b limit).length < limit then
    memorySearchAfterMem0 b limit ++
      backendContribution b.qdrant convertQdrant (limit - (memorySearchAfterMem0 b limit).length)
  else memorySearchAfterMem0 b limit

/-- `_memory_search` (`server.py` lines 319-397): query mem0 for the
full limit, then qdrant and sqlite FTS only while still short of the
limit, each for the remaining budget, concatenating in that order. -/
def memorySearch (b : Backends) (limit : Nat) : List SearchResult :=
  if (memorySearchAfterQdrant b limit).length < limit then
    memorySearchAfterQdrant b limit ++
      backendContribution b.sqlite convertSqlite (limit - (memorySearchAfterQdrant b limit).length)
  else memorySearchAfterQdrant b limit

/-- The backend search contract: a backend returns at most the number of
rows it was asked for (`LIMIT` in the sqlite query, the `[:limit]` caps
in the qdrant and mem0 adapters). -/
def RespectsLimit {α : Type} (backend : Option (Nat → Except Unit (List α))) : Prop :=
  ∀ g, backend = some g → ∀ n xs, g n = Except.ok xs → xs.length ≤ n

/-! ### Concrete inputs used to instantiate the search theorems -/

/-- A concrete well-formed mem0 row. -/
def wMem0Row : Mem0Raw :=
  ⟨some "m-1", some (9 / 10 : Rat), some "uses uv for python deps", some "demo", none⟩

/-- A concrete backend set: a mem0 backend returning at most one row
(and so respecting its limit), a qdrant backend whose calls raise, and
no sqlite handle. -/
def wBackends : Backends where
  mem0 := some fun n => Except.ok (List.replicate (min n 1) wMem0Row)
  qdrant := some fun _ => Except.error ()
  sqlite := none

/-- A mem0 oracle whose every call raises. -/
def wErrMem0 : Nat → Except Unit (List Mem0Raw) := fun _ => Except.error ()

/-- A qdrant oracle whose every call raises. -/
def wErrQdrant : Nat → Except Unit (List QdrantRaw) := fun _ => Except.error ()

/-- A sqlite FTS oracle whose every call raises. -/
def wErrSqlite : Nat → Except Unit (List Message) := fun _ => Except.error ()

/-- A well-formed mem0 row (all required keys present). -/
def c7good : Mem0Raw := ⟨some "m-good", some 1, some "a well formed memory", none, none⟩

/-- A malformed mem0 row: the required `content` key is missing, so
`r["content"]` raises `KeyError` for this row. -/
def c7bad : Mem0Raw := ⟨some "m-bad", some 1, none, none, none⟩

/-- A mem0 oracle returning one well-formed and one malformed row. -/
def c7oracle : Nat → Except Unit (List Mem0Raw) := fun _ => Except.ok [c7good, c7bad]

/-- Backends for the malformed-record scenario: only mem0 is configured
and it returns the batch `[c7good, c7bad]`. -/
def c7backends : Backends := ⟨some c7oracle, none, none⟩

/-- A malformed qdrant row: the required `score` key is missing, so
`r["score"]` raises `KeyError` for this row. -/
def c7qbad : QdrantRaw := ⟨some "q-bad", none, some "has no score", none, none⟩

/-- A qdrant oracle returning the malformed row. -/
def c7qoracle : Nat → Except Unit (List QdrantRaw) := fun _ => Except.ok [c7qbad]

/-- A well-formed mem0 row whose optional `id` key is missing. -/
def c7noid : Mem0Raw := ⟨none, some 1, some "entry without id", none, none⟩

/-- A mem0 oracle returning only the id-less row. -/
def c7noidOracle : Nat → Except Unit (List Mem0Raw) := fun _ => Except.ok [c7noid]

/-- Backends pairing the id-less mem0 batch with the malformed qdrant
batch. -/
def c7backends2 : Backends := ⟨some c7noidOracle, some c7qoracle, none⟩

/-! ## Feedback ledger (`sqlite.py` `add_feedback`, `server.py` `_memory_feedback`)

`add_feedback` inserts one row into `memory_feedback` and returns the
generated id; it performs no validation of the rating.  The freshly
generated UUID and the timestamp are produced by external libraries and
are passed in as parameters of the model. -/

/-- One row of the `memory_feedback` table (the columns
`_memory_feedback` populates; `timestamp` holds the ISO-formatted
`datetime.now()` value). -/
structure FeedbackEntry where
  id : String
  memory_id : String
  memory_source : String
  query : String
  rating : Int
  reason : Option String
  timestamp : String
deriving DecidableEq, Repr

/-- `AianaStorage.add_feedback` (`sqlite.py` lines 327-373): always
INSERTs exactly one row and returns its id; the rating is stored as
given, whatever its value. -/
def add_feedback (store : List FeedbackEntry)
    (feedback_id memory_id memory_source query : String) (rating : Int)
    (reason : Option String) (timestamp : String) : List FeedbackEntry × String :=
  (store ++ [⟨feedback_id, memory_id, memory_source, query, rating, reason, timestamp⟩],
   feedback_id)

/-- The dict lookup `{1: "helpful", 0: "not helpful", -1: "harmful"}[rating]`
in `_memory_feedback`: `none` models the `KeyError` raised for any other
rating. -/
def rating_label (rating : Int) : Option String :=
  if rating = 1 then some "helpful"
  else if rating = 0 then some "not helpful"
  else if rating = -1 then some "harmful"
  else none

/-- The success payload of `_memory_feedback`. -/
structure FeedbackResponse where
  status : String
  feedback_id : String
  memory_id : String
  rating : String
deriving DecidableEq, Repr

/-- `_memory_feedback` (`server.py` lines 607-635): it first calls
`add_feedback` (committing the row), and only afterwards builds the
rating label with a dict lookup that raises `KeyError` for a rating
outside `{-1, 0, 1}`; the raised error propagates to the tool-call
wrapper while the inserted row remains in the store. -/
def memory_feedback (store : List FeedbackEntry)
    (feedback_id memory_id memory_source query : String) (rating : Int)
    (reason : Option String) (timestamp : String) :
    List FeedbackEntry × Except Unit FeedbackResponse :=
  let inserted := add_feedback store feedback_id memory_id memory_source query rating
    reason timestamp
  match rating_label rating with
  | none => (inserted.1, Except.error ())
  | some label => (inserted.1, Except.ok ⟨"recorded", inserted.2, memory_id, label⟩)

/-! ## Redis cache layer (`storage/redis.py`)

The Redis key space used by the context subsystem is modelled as
explicit state: the `aiana:context:*` keys as an association list of
entries and the single `aiana:profile:default` key as an optional
profile (the code always uses `user_id="default"`).  `setex` stores a
value together with its TTL; expiry is modelled by absence, so a
present entry is a present-and-unexpired key. -/

/-- TTL of a cached composed context: 4 hours (`TTL_CONTEXT`). -/
def TTL_CONTEXT : Nat := 3600 * 4

/-- TTL of the profile key: 7 days (`TTL_PROFILE`). -/
def TTL_PROFILE : Nat := 3600 * 24 * 7

/-- The profile value stored at `aiana:profile:default`: a static and a
dynamic preference list. -/
structure Profile where
  static : List String
  dynamic : List String
deriving DecidableEq, Repr

/-- One `aiana:context:<project>` key with its value and the TTL it was
set with. -/
structure CacheEntry where
  project : String
  text : String
  ttl : Nat
deriving DecidableEq, Repr

/-- The Redis state visible to the context subsystem. -/
structure RedisState where
  contexts : List CacheEntry
  profile : Option Profile
  profileTtl : Nat
deriving DecidableEq, Repr

/-- `RedisCache.get_cached_context`: read `aiana:context:<project>`. -/
def get_cached_context (s : RedisState) (project : String) : Option String :=
  (s.contexts.find? (fun e => e.project == project)).map CacheEntry.text

/-- `RedisCache.cache_context`: `setex` of `aiana:context:<project>`
(replacing any previous value for the key). -/
def cache_context (s : RedisState) (project context : String) (ttl : Nat) : RedisState :=
  { s with contexts := ⟨project, context, ttl⟩ ::
      s.contexts.filter (fun e => !(e.project == project)) }

/-- `RedisCache.invalidate_context`: delete `aiana:context:<project>`. -/
def invalidate_context (s : RedisState) (project : String) : RedisState :=
  { s with contexts := s.contexts.filter (fun e => !(e.project == project)) }

/-- `RedisCache.set_profile`: `setex` of the profile key with
`TTL_PROFILE` (this both stores the value and resets the TTL). -/
def set_profile (s : RedisState) (p : Profile) : RedisState :=
  { s with profile := some p, profileTtl := TTL_PROFILE }

/-- `RedisCache.get_profile`. -/
def get_profile (s : RedisState) : Option Profile :=
  s.profile

/-- `RedisCache.add_preference` (`redis.py` lines 215-236): read the
profile (defaulting to empty lists), and only if the preference is not
already in the targeted list, append it, trim the dynamic list to its
last 20 entries, and write the profile back with `set_profile`. -/
def add_preference (s : RedisState) (preference : String) (static : Bool) : RedisState :=
  let profile := (get_profile s).getD ⟨[], []⟩
  if static then
    if preference ∈ profile.static then s
    else set_profile s { profile with static := profile.static ++ [preference] }
  else
    if preference ∈ profile.dynamic then s
    else
      let d := profile.dynamic ++ [preference]
      let d := if 20 < d.length then d.drop (d.length - 20) else d
      set_profile s { profile with dynamic := d }

/-! ## Context injector (`context/injector.py`)

`ContextInjector` holds an optional Redis handle, an optional qdrant
handle and an optional sqlite handle.  `generate_context` takes a
working directory and first derives a project name from it by walking
up to a `.git` marker; that walk reads the filesystem, so the model
takes the derived project name directly.  The two backend reads of the
project section are oracles from (project, limit) to either a raised
exception or a list of rows. -/

/-- One memory dict from `QdrantStorage.get_recent`; the injector only
reads `mem.get("content", "")`. -/
structure QdrantRecent where
  content : Option String
deriving DecidableEq, Repr

/-- One `Session` row as used by `_get_project_section`: `started_at`
holds the already formatted `strftime("%Y-%m-%d %H:%M")` value. -/
structure SessionRow where
  started_at : String
  message_count : Nat
deriving DecidableEq, Repr

/-- `QdrantStorage.get_recent` as an oracle: project and limit to a
raised exception or a list of recent memories. -/
abbrev RecentOracle := String → Nat → Except Unit (List QdrantRecent)

/-- `AianaStorage.list_sessions` as an oracle: project and limit to a
raised exception or a list of session rows. -/
abbrev SessionsOracle := String → Nat → Except Unit (List SessionRow)

/-- The `ContextInjector` handles: `self.redis`, `self.qdrant`,
`self.sqlite` (each `None` when unavailable).  The Redis handle carries
the cache state the injector reads and writes. -/
structure Injector where
  redis : Option RedisState
  qdrantRecent : Option RecentOracle
  sqliteSessions : Option SessionsOracle

/-- `_get_profile_section`: up to 5 static preferences as a bulleted
list under a fixed header; `None` when Redis is unavailable, the profile
is absent, or no static entry exists. -/
def get_profile_section (redis : Option RedisState) : Option String :=
  match redis with
  | none => none
  | some s =>
    match get_profile s with
    | none => none
    | some profile =>
      let lines := "## User Preferences (Persistent)" ::
        (if profile.static.isEmpty then []
         else (profile.static.take 5).map (fun pref => "- " ++ pref))
      if 1 < lines.length then some (String.intercalate "\n" lines) else none

/-- `_get_project_section` (`injector.py` lines 130-173): first the
semantic recent query (at most 5 displayed, each truncated to 150
characters); only when it yields nothing, the recent-sessions list from
sqlite; `None` when neither sub-source yields anything. -/
def get_project_section (qdrant : Option RecentOracle) (sqlite : Option SessionsOracle)
    (project : String) (max_items : Nat) : Option String :=
  let activity : List String :=
    match qdrant with
    | none => []
    | some g =>
      match g project max_items with
      | .error _ => []
      | .ok memories =>
        if memories.isEmpty then []
        else "\n### Recent Activity" ::
          (memories.take 5).map (fun mem => "- " ++ (mem.content.getD "").take 150)
  let sessionLines : List String :=
    if activity.isEmpty then
      match sqlite with
      | none => []
      | some g =>
        match g project 5 with
        | .error _ => []
        | .ok sessions =>
          if sessions.isEmpty then []
          else "\n### Recent Sessions" ::
            sessions.map (fun row =>
              "- " ++ row.started_at ++ ": " ++ toString row.message_count ++ " messages")
    else []
  if activity.isEmpty && sessionLines.isEmpty then none
  else some (String.intercalate "\n" (("## Project: " ++ project) :: activity ++ sessionLines))

/-- `_get_recent_section`: up to `max_items` dynamic profile entries as
a bulleted list; `None` when Redis is unavailable or the dynamic list is
empty. -/
def get_recent_section (redis : Option RedisState) (max_items : Nat) : Option String :=
  match redis with
  | none => none
  | some s =>
    let dynamic := ((get_profile s).map Profile.dynamic).getD []
    if dynamic.isEmpty then none
    else some (String.intercalate "\n"
      ("## Recent Context" :: (dynamic.take max_items).map (fun item => "- " ++ item)))

/-- `_format_context`: the fixed instructional header and footer around
the sections (the `project` argument is accepted and unused, as in the
source). -/
def format_context (sections : List String) (project : String) : String :=
  "<aiana-context>\nThe following context is recalled from your previous sessions.\nUse this to inform your responses but don\x27t explicitly reference it.\n"
    ++ "\n" ++ String.intercalate "\n\n" sections ++ "\n" ++ "\n</aiana-context>"

/-- `_format_empty_context`: the placeholder returned when no section
produced content. -/
def format_empty_context (project : String) : String :=
  "<aiana-context>\nNo previous context found for project: " ++ project
    ++ "\nMemories will be saved as you work.\n</aiana-context>"

/-- The `sections` list assembled by `generate_context`: the profile
section, the project section and the recent section, each included only
when it produced content. -/
def contextSections (inj : Injector) (project : String) (max_items : Nat) : List String :=
  (get_profile_section inj.redis).toList ++
  (get_project_section inj.qdrantRecent inj.sqliteSessions project max_items).toList ++
  (get_recent_section inj.redis max_items).toList

/-- The body of `generate_context` after the cache check: assemble the
three sections in order, return the placeholder if all are empty,
otherwise format the block and cache it (when Redis is available). -/
def generateContextFresh (inj : Injector) (project : String) (max_items : Nat) :
    String × Injector :=
  if (contextSections inj project max_items).isEmpty then
    (format_empty_context project, inj)
  else
    match inj.redis with
    | none => (format_context (contextSections inj project max_items) project, inj)
    | some s =>
      (format_context (contextSections inj project max_items) project,
       { inj with redis := some (cache_context s project
           (format_context (contextSections inj project max_items) project) TTL_CONTEXT) })

/-- `generate_context` (`injector.py` lines 53-106), taking the derived
project name: when Redis is available and holds a truthy (non-empty)
cached context for the project, return it verbatim; otherwise compute
afresh.  The returned injector carries the possibly updated Redis
state. -/
def generate_context (inj : Injector) (project : String) (max_items : Nat) :
    String × Injector :=
  match inj.redis with
  | none => generateContextFresh inj project max_items
  | some s =>
    match get_cached_context s project with
    | none => generateContextFresh inj project max_items
    | some cached =>
      if cached = "" then generateContextFresh inj project max_items else (cached, inj)

/-- `save_session_summary` (`injector.py` lines 268-294): store the
summary in qdrant (a vector-store write, outside the cache state
modelled here), append a dynamic context entry, then invalidate the
cached context of the project. -/
def save_session_summary (inj : Injector) (session_id project summary : String) : Injector :=
  let inj1 :=
    match inj.redis with
    | none => inj
    | some s =>
      { inj with redis := some (add_preference s ("[" ++ project ++ "] " ++ summary.take 100)
          false) }
  match inj1.redis with
  | none => inj1
  | some s => { inj1 with redis := some (invalidate_context s project) }

/-! ### Concrete injector states used to instantiate the theorems -/

/-- A profile with one static and one dynamic entry. -/
def wProfile : Profile := ⟨["prefers concise answers"], ["[demo] looked at the parser"]⟩

/-- A Redis state holding `wProfile` and no cached contexts. -/
def wRedis : RedisState := ⟨[], some wProfile, TTL_PROFILE⟩

/-- A Redis state with no cached contexts and no profile. -/
def wEmptyRedis : RedisState := ⟨[], none, 0⟩

/-- An injector with an empty Redis state and no search backends. -/
def wEmptyInjector : Injector := ⟨some wEmptyRedis, none, none⟩

/-- An injector holding `wRedis` and no search backends. -/
def wInjector : Injector := ⟨some wRedis, none, none⟩

/-- A recent-memories oracle returning one memory for any query. -/
def wRecentOracle : RecentOracle := fun _ _ => Except.ok [⟨some "worked on the lexer"⟩]

/-- A sessions oracle returning one session row for any query. -/
def wSessionsOracle : SessionsOracle := fun _ _ => Except.ok [⟨"2025-01-01 12:00", 3⟩]

/-- A recent-memories oracle that always raises. -/
def wErrRecentOracle : RecentOracle := fun _ _ => Except.error ()

/-- A 20-entry dynamic list (all entries distinct). -/
def wDyn20 : List String := (List.range 20).map (fun i => "entry " ++ toString i)

/-- A profile whose dynamic list is full (20 entries). -/
def wFullProfile : Profile := ⟨["prefers concise answers"], wDyn20⟩

/-- A Redis state holding the full profile. -/
def wFullRedis : RedisState := ⟨[], some wFullProfile, TTL_PROFILE⟩

/-- The composed context that `generate_context` produces for project
"demo" from `wInjector` (profile section and recent section only). -/
def wContext : String :=
  format_context
    ["## User Preferences (Persistent)\n- prefers concise answers",
     "## Recent Context\n- [demo] looked at the parser"] "demo"

theorem convertAll_length {f : α → Option SearchResult} :
    ∀ {rs : List α} {ys : List SearchResult}, convertAll f rs = some ys →
      ys.length = rs.length := by
  intro rs
  induction rs with
  | nil => intro ys h; simp [convertAll] at h; simp [← h]
  | cons r rs ih =>
    intro ys h
    simp only [convertAll] at h
    cases hf : f r with
    | none => rw [hf] at h; simp at h
    | some y =>
      rw [hf] at h
      cases hrec : convertAll f rs with
      | none => rw [hrec] at h; simp at h
      | some zs =>
        rw [hrec] at h
        simp at h
        subst h
        simp [ih hrec]

theorem convertAll_sources {f : α → Option SearchResult} {P : SearchResult → Prop}
    (hf : ∀ r y, f r = some y → P y) :
    ∀ {rs : List α} {ys : List SearchResult}, convertAll f rs = some ys →
      ∀ y ∈ ys, P y := by
  intro rs
  induction rs with
  | nil =>
    intro ys h
    simp [convertAll] at h
    subst h
    simp
  | cons r rs ih =>
    intro ys h
    simp only [convertAll] at h
    cases hfr : f r with
    | none => rw [hfr] at h; simp at h
    | some y =>
      rw [hfr] at h
      cases hrec : convertAll f rs with
      | none => rw [hrec] at h; simp at h
      | some zs =>
        rw [hrec] at h
        simp at h
        subst h
        intro z hz
        rcases List.mem_cons.mp hz with hz | hz
        · exact hz ▸ hf r y hfr
        · exact ih hrec z hz

theorem convertAll_eq_none_of_mem {f : α → Option SearchResult} :
    ∀ {rs : List α} {r : α}, r ∈ rs → f r = none → convertAll f rs = none := by
  intro rs
  induction rs with
  | nil => intro r h; simp at h
  | cons a rs ih =>
    intro r hmem hfr
    rcases List.mem_cons.mp hmem with h | h
    · subst h; simp [convertAll, hfr]
    · simp only [convertAll]
      rw [ih h hfr]
      cases f a <;> rfl

theorem backendContribution_length_le {α : Type}
    (backend : Option (Nat → Except Unit (List α)))
    (convert : List α → Option (List SearchResult))
    (hb : RespectsLimit backend)
    (hc : ∀ rs ys, convert rs = some ys → ys.length = rs.length)
    (n : Nat) : (backendContribution backend convert n).length ≤ n := by
  cases hback : backend with
  | none => simp [backendContribution]
  | some g =>
    simp only [backendContribution]
    cases hg : g n with
    | error e => simp
    | ok raws =>
      cases hconv : convert raws with
      | none => simp [hconv]
      | some ys =>
        simpa [hconv, hc raws ys hconv] using hb g hback n raws hg

theorem backendContribution_sources {α : Type} {P : SearchResult → Prop}
    (backend : Option (Nat → Except Unit (List α)))
    (convert : List α → Option (List SearchResult))
    (hc : ∀ rs ys, convert rs = some ys → ∀ y ∈ ys, P y)
    (n : Nat) : ∀ y ∈ backendContribution backend convert n, P y := by
  cases hback : backend with
  | none => simp [backendContribution]
  | some g =>
    simp only [backendContribution]
    cases hg : g n with
    | error e => simp
    | ok raws =>
      cases hconv : convert raws with
      | none => simp [hconv]
      | some ys =>
        simpa [hconv] using hc raws ys hconv

theorem convertMem0_source {rs ys} (h : convertMem0 rs = some ys) :
    ∀ y ∈ ys, SearchResult.source y = "mem0" := by
  refine convertAll_sources ?_ h
  intro r y hy
  unfold convertMem0One at hy
  cases hc : r.content with
  | none => rw [hc] at hy; simp at hy
  | some c => rw [hc] at hy; simp at hy; simp [← hy, SearchResult.source]

theorem convertQdrant_source {rs ys} (h : convertQdrant rs = some ys) :
    ∀ y ∈ ys, SearchResult.source y = "semantic" := by
  refine convertAll_sources ?_ h
  intro r y hy
  unfold convertQdrantOne at hy
  cases hs : r.score with
  | none => rw [hs] at hy; simp at hy
  | some sc =>
    cases hc : r.content with
    | none => rw [hs, hc] at hy; simp at hy
    | some c => rw [hs, hc] at hy; simp at hy; simp [← hy, SearchResult.source]

theorem convertSqlite_source {ms ys} (h : convertSqlite ms = some ys) :
    ∀ y ∈ ys, SearchResult.source y = "fulltext" := by
  refine convertAll_sources ?_ h
  intro r y hy
  simp at hy
  simp [← hy, SearchResult.source]

/-- C1: for every query, every limit `L ≥ 0` and every combination of
backend results (each backend honouring the search contract of
returning at most the requested number of rows), the aggregated search
returns at most `L` results, ordered as the concatenation of the mem0
hits, then the qdrant (semantic) hits, then the sqlite fulltext hits,
with each later backend queried only for the remaining budget, and with
no re-ranking across backends. -/
theorem memory_search_budget_and_order (b : Backends) (L : Nat)
    (hm : RespectsLimit b.mem0) (hq : RespectsLimit b.qdrant) (hs : RespectsLimit b.sqlite) :
    ∃ m q f,
      memorySearch b L = m ++ q ++ f ∧
      (memorySearch b L).length ≤ L ∧
      m = backendContribution b.mem0 convertMem0 L ∧
      q = (if m.length < L then backendContribution b.qdrant convertQdrant (L - m.length)
           else []) ∧
      f = (if m.length + q.length < L then
             backendContribution b.sqlite convertSqlite (L - (m.length + q.length))
           else []) ∧
      (∀ r ∈ m, r.source = "mem0") ∧
      (∀ r ∈ q, r.source = "semantic") ∧
      (∀ r ∈ f, r.source = "fulltext") := by
  set m := backendContribution b.mem0 convertMem0 L with hm_def
  set q := (if m.length < L then backendContribution b.qdrant convertQdrant (L - m.length)
            else []) with hq_def
  set f := (if m.length + q.length < L then
              backendContribution b.sqlite convertSqlite (L - (m.length + q.length))
            else []) with hf_def
  have hmlen : m.length ≤ L :=
    backendContribution_length_le _ _ hm (fun _ _ h => convertAll_length h) L
  have hqlen : q.length ≤ L - m.length := by
    rw [hq_def]
    split
    · exact backendContribution_length_le _ _ hq (fun _ _ h => convertAll_length h) _
    · simp
  have hflen : f.length ≤ L - (m.length + q.length) := by
    rw [hf_def]
    split
    · exact backendContribution_length_le _ _ hs (fun _ _ h => convertAll_length h) _
    · simp
  have h2q : memorySearchAfterQdrant b L = m ++ q := by
    unfold memorySearchAfterQdrant memorySearchAfterMem0
    rw [← hm_def, hq_def]
    by_cases h1 : m.length < L
    · rw [if_pos h1, if_pos h1]
    · rw [if_neg h1, if_neg h1, List.append_nil]
  have hsearch : memorySearch b L = m ++ q ++ f := by
    unfold memorySearch
    rw [h2q, List.length_append]
    by_cases h2 : m.length + q.length < L
    · rw [if_pos h2, hf_def, if_pos h2, List.append_assoc]
    · rw [if_neg h2, hf_def, if_neg h2, List.append_nil]
  refine ⟨m, q, f, hsearch, ?_, hm_def, hq_def, hf_def, ?_, ?_, ?_⟩
  · rw [hsearch]
    simp only [List.length_append]
    omega
  · exact backendContribution_sources _ _ (fun _ _ h => convertMem0_source h) L
  · rw [hq_def]
    split
    · exact backendContribution_sources _ _ (fun _ _ h => convertQdrant_source h) _
    · simp
  · rw [hf_def]
    split
    · exact backendContribution_sources _ _ (fun _ _ h => convertSqlite_source h) _
    · simp

/-- Witness for C1: the backends `wBackends` honour the limit contract,
and the aggregated search at limit 3 indeed returns at most 3 results. -/
theorem memory_search_budget_and_order_witness :
    RespectsLimit wBackends.mem0 ∧ (memorySearch wBackends 3).length ≤ 3 := by
  have hm : RespectsLimit wBackends.mem0 := by
    intro g hg n xs hxs
    simp only [wBackends] at hg
    injection hg with hg
    subst hg
    simp only [] at hxs
    injection hxs with hxs
    subst hxs
    simp [Nat.min_le_left]
  have hq : RespectsLimit wBackends.qdrant := by
    intro g hg n xs hxs
    simp only [wBackends] at hg
    injection hg with hg
    subst hg
    simp at hxs
  have hs : RespectsLimit wBackends.sqlite := by
    intro g hg
    simp [wBackends] at hg
  obtain ⟨m, q, f, h1, h2, -⟩ := memory_search_budget_and_order wBackends 3 hm hq hs
  exact ⟨hm, h2⟩

/-- C3: a backend whose calls raise contributes zero results and the
remaining backends are still consulted (the search behaves exactly as
if the raising backend were absent); when every backend raises, the
search still returns a value, namely the empty list, rather than an
error. -/
theorem memory_search_error_isolation (L : Nat)
    (fm : Nat → Except Unit (List Mem0Raw))
    (fq : Nat → Except Unit (List QdrantRaw))
    (fs : Nat → Except Unit (List Message))
    (hm : ∀ n, fm n = Except.error ())
    (hq : ∀ n, fq n = Except.error ())
    (hs : ∀ n, fs n = Except.error ()) :
    (∀ q s, memorySearch ⟨some fm, q, s⟩ L = memorySearch ⟨none, q, s⟩ L) ∧
    (∀ m s, memorySearch ⟨m, some fq, s⟩ L = memorySearch ⟨m, none, s⟩ L) ∧
    (∀ m q, memorySearch ⟨m, q, some fs⟩ L = memorySearch ⟨m, q, none⟩ L) ∧
    memorySearch ⟨some fm, some fq, some fs⟩ L = [] := by
  refine ⟨?_, ?_, ?_, ?_⟩
  · intro q s
    simp [memorySearch, memorySearchAfterQdrant, memorySearchAfterMem0,
      backendContribution, hm]
  · intro m s
    simp [memorySearch, memorySearchAfterQdrant, memorySearchAfterMem0,
      backendContribution, hq]
  · intro m q
    simp [memorySearch, memorySearchAfterQdrant, memorySearchAfterMem0,
      backendContribution, hs]
  · simp [memorySearch, memorySearchAfterQdrant, memorySearchAfterMem0,
      backendContribution, hm, hq, hs]

/-- Witness for C3: with all three backends raising, the aggregated
search at limit 10 returns the empty list. -/
theorem memory_search_error_isolation_witness :
    memorySearch ⟨some wErrMem0, some wErrQdrant, some wErrSqlite⟩ 10 = [] :=
  (memory_search_error_isolation 10 wErrMem0 wErrQdrant wErrSqlite
    (fun _ => rfl) (fun _ => rfl) (fun _ => rfl)).2.2.2

/-- C7 counterexample: the mem0 batch `[c7good, c7bad]` contains exactly
one malformed entry (`c7bad`, missing the required `content` field) and
one well-formed entry, yet the aggregated search returns the empty list:
the well-formed entry from the same backend is dropped along with the
malformed one, contradicting the claim that only the single malformed
entry is dropped. -/
theorem memory_search_malformed_counterexample :
    c7bad.content = none ∧
    c7good.content = some "a well formed memory" ∧
    c7backends.mem0 = some c7oracle ∧
    c7oracle 10 = Except.ok [c7good, c7bad] ∧
    memorySearch c7backends 10 = [] :=
  ⟨rfl, rfl, rfl, rfl, rfl⟩

theorem convertQdrantOne_eq_none {r : QdrantRaw}
    (hbad : r.content = none ∨ r.score = none) : convertQdrantOne r = none := by
  cases hsc : r.score with
  | none => cases hc : r.content <;> simp [convertQdrantOne, hsc, hc]
  | some sc =>
    cases hc : r.content with
    | none => simp [convertQdrantOne, hsc, hc]
    | some c =>
      rcases hbad with h | h
      · rw [hc] at h; exact absurd h (by simp)
      · rw [hsc] at h; exact absurd h (by simp)

theorem convertMem0_total_of_content : ∀ {raws : List Mem0Raw},
    (∀ r ∈ raws, r.content ≠ none) →
    convertMem0 raws = some (raws.map (fun r =>
      SearchResult.mem0Hit (r.id.getD "") (r.score.getD 1) (r.content.getD "")
        r.project r.timestamp)) := by
  intro raws
  induction raws with
  | nil => intro _; rfl
  | cons r rs ih =>
    intro h
    obtain ⟨c, hc⟩ := Option.ne_none_iff_exists'.mp (h r (List.mem_cons_self r rs))
    have hone : convertMem0One r = some (SearchResult.mem0Hit (r.id.getD "")
        (r.score.getD 1) (r.content.getD "") r.project r.timestamp) := by
      simp [convertMem0One, hc]
    have hrs := ih (fun x hx => h x (List.mem_cons_of_mem r hx))
    simp only [convertMem0, convertAll] at hrs ⊢
    rw [hone, hrs]
    simp

/-- C7 amended: a backend result entry missing only the optional
identifier is never dropped (the id defaults to the empty string and
the whole batch is kept); a mem0 entry missing the required `content`
field, or a qdrant entry missing the required `content` or `score`
field, makes the aggregator drop the entire batch of that backend (the
search behaves exactly as if that backend were absent, so the other
backends are still consulted), and the query as a whole still returns a
list rather than an error. -/
theorem memory_search_drops_whole_malformed_batch (b : Backends) (L : Nat) :
    (∀ g raws r, b.mem0 = some g → g L = Except.ok raws → r ∈ raws →
      r.content = none →
      memorySearch b L = memorySearch { b with mem0 := none } L) ∧
    (∀ g raws r, b.qdrant = some g →
      g (L - (memorySearchAfterMem0 b L).length) = Except.ok raws → r ∈ raws →
      (r.content = none ∨ r.score = none) →
      memorySearch b L = memorySearch { b with qdrant := none } L) ∧
    (∀ g raws, b.mem0 = some g → g L = Except.ok raws →
      (∀ r ∈ raws, r.content ≠ none) →
      memorySearchAfterMem0 b L = raws.map (fun r =>
        SearchResult.mem0Hit (r.id.getD "") (r.score.getD 1) (r.content.getD "")
          r.project r.timestamp)) := by
  refine ⟨?_, ?_, ?_⟩
  · intro g raws r hb hok hr hbad
    have hconv : convertMem0 raws = none := by
      refine convertAll_eq_none_of_mem hr ?_
      simp [convertMem0One, hbad]
    have h1 : memorySearchAfterMem0 b L
        = memorySearchAfterMem0 { b with mem0 := none } L := by
      simp [memorySearchAfterMem0, backendContribution, hb, hok, hconv]
    have h2 : memorySearchAfterQdrant b L
        = memorySearchAfterQdrant { b with mem0 := none } L := by
      unfold memorySearchAfterQdrant
      rw [h1]
    unfold memorySearch
    rw [h2]
  · intro g raws r hb hok hr hbad
    have hconv : convertQdrant raws = none :=
      convertAll_eq_none_of_mem hr (convertQdrantOne_eq_none hbad)
    have hcontrib : backendContribution b.qdrant convertQdrant
        (L - (memorySearchAfterMem0 b L).length) = [] := by
      simp [backendContribution, hb, hok, hconv]
    have hmm : memorySearchAfterMem0 { b with qdrant := none } L
        = memorySearchAfterMem0 b L := rfl
    have h2 : memorySearchAfterQdrant b L
        = memorySearchAfterQdrant { b with qdrant := none } L := by
      unfold memorySearchAfterQdrant
      rw [hmm, hcontrib]
      simp [backendContribution]
    unfold memorySearch
    rw [h2]
  · intro g raws hb hok hall
    simp [memorySearchAfterMem0, backendContribution, hb, hok,
      convertMem0_total_of_content hall]

/-- Witness for C7 amended: the mem0 batch with a missing-content row is
dropped whole; the qdrant batch with a missing-score row is dropped
whole; the id-less but otherwise well-formed mem0 row is kept, with its
identifier defaulted to the empty string. -/
theorem memory_search_drops_whole_malformed_batch_witness :
    memorySearch c7backends 10 = memorySearch { c7backends with mem0 := none } 10 ∧
    memorySearch c7backends2 10 = memorySearch { c7backends2 with qdrant := none } 10 ∧
    memorySearchAfterMem0 c7backends2 10
      = [SearchResult.mem0Hit "" 1 "entry without id" none none] := by
  refine ⟨?_, ?_, ?_⟩
  · exact (memory_search_drops_whole_malformed_batch c7backends 10).1 c7oracle
      [c7good, c7bad] c7bad rfl rfl (by simp) rfl
  · exact (memory_search_drops_whole_malformed_batch c7backends2 10).2.1 c7qoracle
      [c7qbad] c7qbad rfl rfl (by simp) (Or.inr rfl)
  · exact ((memory_search_drops_whole_malformed_batch c7backends2 10).2.2 c7noidOracle
      [c7noid] rfl rfl (by decide)).trans rfl

/-- C2 (code bug): the claim says an out-of-range rating fails with
`InvalidRating` and leaves the feedback store unchanged.  The code does
surface an error for rating 2, but only after the row has been
inserted: at rating 2 the call errors AND the store has gained the row.
At a valid rating 1 the call succeeds, appends exactly one entry and
returns its feedback identifier, as claimed. -/
theorem memory_feedback_invalid_rating_still_writes :
    (memory_feedback [] "fb-1" "mem-1" "semantic" "test query" 2 none "t0").2
        = Except.error () ∧
    (memory_feedback [] "fb-1" "mem-1" "semantic" "test query" 2 none "t0").1
        = [⟨"fb-1", "mem-1", "semantic", "test query", 2, none, "t0"⟩] ∧
    (memory_feedback [] "fb-1" "mem-1" "semantic" "test query" 1 none "t0").2
        = Except.ok ⟨"recorded", "fb-1", "mem-1", "helpful"⟩ ∧
    (memory_feedback [] "fb-1" "mem-1" "semantic" "test query" 1 none "t0").1
        = [⟨"fb-1", "mem-1", "semantic", "test query", 1, none, "t0"⟩] :=
  ⟨rfl, rfl, rfl, rfl⟩

theorem get_cached_context_cache_context_self (s : RedisState) (p c : String) (ttl : Nat) :
    get_cached_context (cache_context s p c ttl) p = some c := by
  simp [get_cached_context, cache_context, List.find?]

theorem get_cached_context_invalidate_context_self (s : RedisState) (p : String) :
    get_cached_context (invalidate_context s p) p = none := by
  have hfind : (s.contexts.filter (fun e => !(e.project == p))).find?
      (fun e => e.project == p) = none := by
    rw [List.find?_eq_none]
    intro x hx
    have hxp := (List.mem_filter.mp hx).2
    simp at hxp ⊢
    exact hxp
  simp [get_cached_context, invalidate_context, hfind]

/-- C6: `add_preference` preserves the Profile invariant.  A string
already present in the targeted list is never inserted again (the call
is a no-op), and adding a 21st distinct dynamic entry to a 20-entry
dynamic list evicts the oldest entry, keeping the length at 20; in all
cases the dynamic list stays deduplicated and at most 20 entries long. -/
theorem add_preference_preserves_profile_invariant (s : RedisState) (p : Profile)
    (preference : String)
    (hp : s.profile = some p)
    (hlen : p.dynamic.length ≤ 20)
    (hnds : p.static.Nodup) (hndd : p.dynamic.Nodup) :
    ∃ p2, (add_preference s preference false).profile = some p2 ∧
      p2.static.Nodup ∧ p2.dynamic.Nodup ∧ p2.dynamic.length ≤ 20 ∧
      (preference ∈ p.dynamic → add_preference s preference false = s) ∧
      (preference ∈ p.static → add_preference s preference true = s) ∧
      (preference ∉ p.dynamic → p.dynamic.length = 20 →
        p2.dynamic = p.dynamic.tail ++ [preference] ∧ p2.dynamic.length = 20) := by
  by_cases hmem : preference ∈ p.dynamic
  · have hres : add_preference s preference false = s := by
      simp [add_preference, get_profile, hp, hmem]
    refine ⟨p, by rw [hres, hp], hnds, hndd, hlen, fun _ => hres, ?_, ?_⟩
    · intro hmem2
      simp [add_preference, get_profile, hp, hmem2]
    · intro hnot
      exact absurd hmem hnot
  · have hstatic_noop : preference ∈ p.static → add_preference s preference true = s := by
      intro hmem2
      simp [add_preference, get_profile, hp, hmem2]
    by_cases hfull : p.dynamic.length = 20
    · have hres : (add_preference s preference false).profile
          = some ⟨p.static, p.dynamic.tail ++ [preference]⟩ := by
        simp [add_preference, get_profile, hp, hmem, set_profile]
        rw [hfull]
        norm_num
        rw [List.tail_append_singleton_of_ne_nil
          (by intro hnil; rw [hnil] at hfull; simp at hfull)]
      have htail_nd : p.dynamic.tail.Nodup := hndd.sublist (List.tail_sublist _)
      have hpref_tail : preference ∉ p.dynamic.tail :=
        fun h => hmem (List.mem_of_mem_tail h)
      have hnd2 : (p.dynamic.tail ++ [preference]).Nodup := by
        simp [List.nodup_append, htail_nd, hpref_tail]
      have hlen2 : (p.dynamic.tail ++ [preference]).length = 20 := by
        simp [List.length_tail, hfull]
      exact ⟨⟨p.static, p.dynamic.tail ++ [preference]⟩, hres, hnds, hnd2,
        le_of_eq hlen2, fun h => absurd h hmem, hstatic_noop,
        fun _ _ => ⟨rfl, hlen2⟩⟩
    · have hle : ¬ 20 < p.dynamic.length + 1 := by omega
      have hres : (add_preference s preference false).profile
          = some ⟨p.static, p.dynamic ++ [preference]⟩ := by
        simp [add_preference, get_profile, hp, hmem, set_profile, hle]
      have hnd2 : (p.dynamic ++ [preference]).Nodup := by
        simp [List.nodup_append, hndd, hmem]
      have hlen2 : (p.dynamic ++ [preference]).length ≤ 20 := by
        simp only [List.length_append, List.length_singleton]
        omega
      exact ⟨⟨p.static, p.dynamic ++ [preference]⟩, hres, hnds, hnd2, hlen2,
        fun h => absurd h hmem, hstatic_noop,
        fun _ h20 => absurd h20 hfull⟩

/-- Witness for C6: on the concrete state `wRedis` the invariant
hypotheses hold, and inserting an already present dynamic entry is a
no-op. -/
theorem add_preference_preserves_profile_invariant_witness :
    wRedis.profile = some wProfile ∧ wProfile.dynamic.length ≤ 20 ∧
    add_preference wRedis "[demo] looked at the parser" false = wRedis := by
  obtain ⟨p2, -, -, -, -, hdup, -, -⟩ :=
    add_preference_preserves_profile_invariant wRedis wProfile
      "[demo] looked at the parser" rfl (by decide) (by decide) (by decide)
  exact ⟨rfl, by decide, hdup (by decide)⟩

/-- C10: inserting a preference string already present in the targeted
list is a complete no-op: the Redis state after the call is byte
identical to the state before it (profile lists, cached contexts and
the profile TTL all unchanged), so no Fast Cache write happens and the
7-day profile TTL is not refreshed. -/
theorem add_preference_duplicate_noop (s : RedisState) (p : Profile) (preference : String)
    ( isStatic : Bool)
    (hp : s.profile = some p)
    (hmem : preference ∈ (if isStatic then p.static else p.dynamic)) :
    add_preference s preference isStatic = s := by
  cases isStatic with
  | false =>
    simp at hmem
    simp [add_preference, get_profile, hp, hmem]
  | true =>
    simp at hmem
    simp [add_preference, get_profile, hp, hmem]

/-- Witness for C10: re-adding the already stored static preference of
`wRedis` leaves the state unchanged. -/
theorem add_preference_duplicate_noop_witness :
    add_preference wRedis "prefers concise answers" true = wRedis :=
  add_preference_duplicate_noop wRedis wProfile "prefers concise answers" true rfl
    (by decide)

/-- C9: the project section uses exactly one sub-source.  When the
semantic recent query returns at least one record, the section renders
at most 5 of those records, each truncated to 150 characters, and the
Record Store is not consulted (the result does not depend on the sqlite
handle at all); only when the semantic query is absent, fails or
returns nothing does the section fall back to at most 5 recent sessions
(at most 5 by the `LIMIT 5` contract of `list_sessions`), each rendered
as "timestamp: N messages". -/
theorem project_section_single_subsource
    (q : Option RecentOracle) (s : Option SessionsOracle)
    (project : String) (max_items : Nat) :
    (∀ g memories, q = some g → g project max_items = Except.ok memories →
      memories ≠ [] →
      (∀ s2, get_project_section q s2 project max_items
          = get_project_section q s project max_items) ∧
      get_project_section q s project max_items =
        some (String.intercalate "\n" (("## Project: " ++ project) ::
          "\n### Recent Activity" ::
          (memories.take 5).map (fun mem => "- " ++ (mem.content.getD "").take 150)))) ∧
    ((∀ g, q = some g →
        g project max_items = Except.error () ∨ g project max_items = Except.ok []) →
      ∀ g2 sessions, s = some g2 → g2 project 5 = Except.ok sessions → sessions ≠ [] →
      (∀ n xs, g2 project n = Except.ok xs → xs.length ≤ n) →
      sessions.length ≤ 5 ∧
      get_project_section q s project max_items =
        some (String.intercalate "\n" (("## Project: " ++ project) ::
          "\n### Recent Sessions" ::
          sessions.map (fun row =>
            "- " ++ row.started_at ++ ": " ++ toString row.message_count
              ++ " messages")))) := by
  constructor
  · intro g memories hg hok hne
    obtain ⟨m, ms, rfl⟩ := List.exists_cons_of_ne_nil hne
    have hmain : ∀ s2 : Option SessionsOracle,
        get_project_section q s2 project max_items
          = some (String.intercalate "\n" (("## Project: " ++ project) ::
              "\n### Recent Activity" ::
              ((m :: ms).take 5).map
                (fun mem => "- " ++ (mem.content.getD "").take 150))) := by
      intro s2
      simp [get_project_section, hg, hok]
    exact ⟨fun s2 => by rw [hmain s2, hmain s], hmain s⟩
  · intro hqe g2 sessions hs2 hok2 hne2 hcap
    refine ⟨hcap 5 sessions hok2, ?_⟩
    obtain ⟨row, rows, rfl⟩ := List.exists_cons_of_ne_nil hne2
    cases hq : q with
    | none => simp [get_project_section, hq, hs2, hok2]
    | some g =>
      rcases hqe g hq with h1 | h1
      · simp [get_project_section, hq, h1, hs2, hok2]
      · simp [get_project_section, hq, h1, hs2, hok2]

/-- Witness for C9: with a semantic oracle returning one record, the
project section is independent of the sqlite handle. -/
theorem project_section_single_subsource_witness :
    get_project_section (some wRecentOracle) none "demo" 5
      = get_project_section (some wRecentOracle) (some wSessionsOracle) "demo" 5 :=
  ((project_section_single_subsource (some wRecentOracle) (some wSessionsOracle)
    "demo" 5).1 wRecentOracle [⟨some "worked on the lexer"⟩] rfl rfl (by simp)).1 none

/-- C8: when the cache holds no entry for the project, the profile has
no static and no dynamic entries (or is absent), and both project
sub-sources yield nothing, `generate_context` returns exactly the
"no previous context found" placeholder block (and does not change the
state). -/
theorem generate_context_empty_placeholder (inj : Injector) (project : String)
    (max_items : Nat)
    (hcache : ∀ s, inj.redis = some s → get_cached_context s project = none)
    (hprofile : ∀ s p, inj.redis = some s → s.profile = some p →
      p.static = [] ∧ p.dynamic = [])
    (hq : ∀ g, inj.qdrantRecent = some g →
      g project max_items = Except.error () ∨ g project max_items = Except.ok [])
    (hs : ∀ g, inj.sqliteSessions = some g →
      g project 5 = Except.error () ∨ g project 5 = Except.ok []) :
    generate_context inj project max_items =
      ("<aiana-context>\nNo previous context found for project: " ++ project
        ++ "\nMemories will be saved as you work.\n</aiana-context>", inj) := by
  have hps : get_profile_section inj.redis = none := by
    cases hr : inj.redis with
    | none => rfl
    | some s =>
      cases hpr : s.profile with
      | none => simp [get_profile_section, get_profile, hpr]
      | some p =>
        have hsp := (hprofile s p hr hpr).1
        simp [get_profile_section, get_profile, hpr, hsp]
  have hpj : get_project_section inj.qdrantRecent inj.sqliteSessions project max_items
      = none := by
    cases hqr : inj.qdrantRecent with
    | none =>
      cases hsr : inj.sqliteSessions with
      | none => rfl
      | some g2 =>
        rcases hs g2 hsr with h2 | h2
        · simp [get_project_section, h2]
        · simp [get_project_section, h2]
    | some g =>
      rcases hq g hqr with h1 | h1
      · cases hsr : inj.sqliteSessions with
        | none => simp [get_project_section, h1]
        | some g2 =>
          rcases hs g2 hsr with h2 | h2
          · simp [get_project_section, h1, h2]
          · simp [get_project_section, h1, h2]
      · cases hsr : inj.sqliteSessions with
        | none => simp [get_project_section, h1]
        | some g2 =>
          rcases hs g2 hsr with h2 | h2
          · simp [get_project_section, h1, h2]
          · simp [get_project_section, h1, h2]
  have hrs : get_recent_section inj.redis max_items = none := by
    cases hr : inj.redis with
    | none => rfl
    | some s =>
      cases hpr : s.profile with
      | none => simp [get_recent_section, get_profile, hpr]
      | some p =>
        have hdp := (hprofile s p hr hpr).2
        simp [get_recent_section, get_profile, hpr, hdp]
  have hfresh : generateContextFresh inj project max_items
      = (format_empty_context project, inj) := by
    simp [generateContextFresh, contextSections, hps, hpj, hrs]
  have hfinal : generate_context inj project max_items
      = (format_empty_context project, inj) := by
    cases hr : inj.redis with
    | none => rw [← hfresh]; simp [generate_context, hr]
    | some s =>
      have hl := hcache s hr
      rw [← hfresh]
      simp [generate_context, hr, hl]
  rw [hfinal]
  rfl

/-- Witness for C8: on an injector with an empty cache, no profile and
no backends, recall for project "demo" is exactly the placeholder. -/
theorem generate_context_empty_placeholder_witness :
    generate_context wEmptyInjector "demo" 5 =
      ("<aiana-context>\nNo previous context found for project: " ++ "demo"
        ++ "\nMemories will be saved as you work.\n</aiana-context>",
       wEmptyInjector) :=
  generate_context_empty_placeholder wEmptyInjector "demo" 5
    (fun s h => by injection h with h; subst h; rfl)
    (fun s p h hp => by injection h with h; subst h; simp [wEmptyRedis] at hp)
    (fun g h => by simp [wEmptyInjector] at h)
    (fun g h => by simp [wEmptyInjector] at h)

theorem generateContextFresh_cases (inj : Injector) (s : RedisState) (project : String)
    (max_items : Nat) (hredis : inj.redis = some s) :
    generateContextFresh inj project max_items = (format_empty_context project, inj) ∨
    ∃ ctx, generateContextFresh inj project max_items =
      (ctx, { inj with redis := some (cache_context s project ctx TTL_CONTEXT) }) := by
  unfold generateContextFresh
  split
  · exact Or.inl rfl
  · right
    simp only [hredis]
    exact ⟨_, rfl⟩

/-- C4: when a first `generate_context` call leaves (or finds) a
non-empty cached context for the project and the Fast Cache is
available, a second call with no intervening write returns that cached
text verbatim without recomputation (the state is unchanged), and the
two calls return byte-identical output. -/
theorem generate_context_cached_idempotent (inj : Injector) (project : String)
    (max_items : Nat) (out1 : String) (inj1 : Injector) (s1 : RedisState) (c : String)
    (h1 : generate_context inj project max_items = (out1, inj1))
    (hr : inj1.redis = some s1)
    (hc : get_cached_context s1 project = some c) (hne : c ≠ "") :
    generate_context inj1 project max_items = (c, inj1) ∧ out1 = c := by
  cases hredis : inj.redis with
  | none =>
    have hsnd : (generateContextFresh inj project max_items).2 = inj := by
      simp only [generateContextFresh, hredis]
      split
      · rfl
      · rfl
    have hgen : generate_context inj project max_items
        = generateContextFresh inj project max_items := by
      simp [generate_context, hredis]
    rw [hgen] at h1
    rw [h1] at hsnd
    have hsub : inj1 = inj := hsnd
    rw [hsub, hredis] at hr
    exact absurd hr (by simp)
  | some s =>
    cases hcached : get_cached_context s project with
    | none =>
      have hgen : generate_context inj project max_items
          = generateContextFresh inj project max_items := by
        simp [generate_context, hredis, hcached]
      rw [hgen] at h1
      rcases generateContextFresh_cases inj s project max_items hredis with hemp | ⟨ctx, hctx⟩
      · rw [hemp] at h1
        injection h1 with ho hi
        rw [← hi, hredis] at hr
        injection hr with hr
        rw [← hr] at hc
        rw [hcached] at hc
        exact absurd hc (by simp)
      · rw [hctx] at h1
        injection h1 with ho hi
        rw [← hi] at hr
        simp only [] at hr
        injection hr with hr
        rw [← hr, get_cached_context_cache_context_self] at hc
        injection hc with hcc
        subst hcc
        subst ho
        refine ⟨?_, rfl⟩
        rw [← hi]
        simp [generate_context, get_cached_context_cache_context_self, hne]
    | some cached =>
      by_cases hcne : cached = ""
      · subst hcne
        have hgen : generate_context inj project max_items
            = generateContextFresh inj project max_items := by
          simp [generate_context, hredis, hcached]
        rw [hgen] at h1
        rcases generateContextFresh_cases inj s project max_items hredis with hemp | ⟨ctx, hctx⟩
        · rw [hemp] at h1
          injection h1 with ho hi
          rw [← hi, hredis] at hr
          injection hr with hr
          rw [← hr] at hc
          rw [hcached] at hc
          injection hc with hc
          exact absurd hc.symm hne
        · rw [hctx] at h1
          injection h1 with ho hi
          rw [← hi] at hr
          simp only [] at hr
          injection hr with hr
          rw [← hr, get_cached_context_cache_context_self] at hc
          injection hc with hcc
          subst hcc
          subst ho
          refine ⟨?_, rfl⟩
          rw [← hi]
          simp [generate_context, get_cached_context_cache_context_self, hne]
      · have hgen : generate_context inj project max_items = (cached, inj) := by
          simp [generate_context, hredis, hcached, hcne]
        rw [hgen] at h1
        injection h1 with ho hi
        rw [← hi, hredis] at hr
        injection hr with hr
        rw [← hr] at hc
        rw [hcached] at hc
        injection hc with hcc
        subst hcc
        subst ho
        constructor
        · rw [← hi]
          simp [generate_context, hredis, hcached, hcne]
        · rfl

/-- Witness for C4: the second recall for project "demo" on the state
left by the first recall returns the identical output and state. -/
theorem generate_context_cached_idempotent_witness :
    generate_context (generate_context wInjector "demo" 5).2 "demo" 5
      = ((generate_context wInjector "demo" 5).1,
         (generate_context wInjector "demo" 5).2) := by
  have h := generate_context_cached_idempotent wInjector "demo" 5
    (generate_context wInjector "demo" 5).1 (generate_context wInjector "demo" 5).2
    (cache_context wRedis "demo" wContext TTL_CONTEXT) wContext
    rfl rfl (get_cached_context_cache_context_self wRedis "demo" wContext TTL_CONTEXT)
    (by decide)
  rw [h.1]
  rw [show (generate_context wInjector "demo" 5).1 = wContext from h.2]

/-- C5: after `save_session_summary` completes with the Fast Cache
available, the cached composed context of the project has been deleted,
so the next `generate_context` call for that project goes through the
fresh computation path and cannot return a value cached before the
summary was saved. -/
theorem save_session_summary_invalidates (inj : Injector) (s : RedisState)
    (session_id project summary : String)
    (h : inj.redis = some s) :
    ∃ s2, (save_session_summary inj session_id project summary).redis = some s2 ∧
      get_cached_context s2 project = none ∧
      (∀ max_items,
        generate_context (save_session_summary inj session_id project summary)
            project max_items
          = generateContextFresh (save_session_summary inj session_id project summary)
              project max_items) := by
  obtain ⟨r, qo, so⟩ := inj
  simp only [] at h
  subst h
  refine ⟨invalidate_context
      (add_preference s ("[" ++ project ++ "] " ++ summary.take 100) false) project,
    rfl, get_cached_context_invalidate_context_self _ _, ?_⟩
  intro max_items
  have hlook := get_cached_context_invalidate_context_self
    (add_preference s ("[" ++ project ++ "] " ++ summary.take 100) false) project
  simp [generate_context, save_session_summary, hlook]

/-- Witness for C5: after saving a summary for "demo", the next recall
for "demo" goes through the fresh computation path. -/
theorem save_session_summary_invalidates_witness :
    generate_context (save_session_summary wInjector "sid-1" "demo" "done") "demo" 5
      = generateContextFresh (save_session_summary wInjector "sid-1" "demo" "done")
          "demo" 5 := by
  obtain ⟨s2, -, -, hfresh⟩ :=
    save_session_summary_invalidates wInjector wRedis "sid-1" "demo" "done" rfl
  exact hfresh 5

end Aiana
